import Mathlib

/-
Verification of the build-definition resource translator
(azuredevops/resource_build_definition.go).

The Go file maps between a Terraform resource's attribute map
("config") and the Azure DevOps SDK's BuildDefinition structs, and
implements the four lifecycle callbacks (create/read/update/delete).
The embedding below models:

  * Go pointers as `Option` (nil = `none`; dereferencing `none` is a
    runtime panic, modelled by an `Option`-valued result where `none`
    means the Go code panics);
  * Go `map[string]T` as association lists with first-match lookup
    (map indexing on a missing key yields the zero value; a failed
    type assertion on an `interface{}` value panics);
  * the SDK's `interface{}`-typed `Process` field as a small inductive
    covering the shapes the code probes for;
  * the remote build client as a record of effectful-looking pure
    functions returning `Except`, and each lifecycle callback returns
    its outcome together with the list of remote calls it issued.
-/

set_option autoImplicit false

namespace AzureDevOps

/-- One entry of the `repository` attribute set, as laid out in the
resource schema (all five fields are strings). The same record type is
used for the flattened repository block, whose keys coincide. -/
structure Repository where
  yml_path : String
  repo_name : String
  repo_type : String
  branch_name : String
  service_connection_id : String
  deriving DecidableEq, Repr

/-- The Terraform `schema.ResourceData` as this resource uses it:
`d.Id()` plus the typed attributes read with `d.Get(...)`. The
`repository` attribute is the list `d.Get("repository").(*schema.Set).List()`
yields; the schema constrains it to one element but the code checks. -/
structure ResourceData where
  id : String
  project_id : String
  name : String
  path : String
  revision : Int
  agent_pool_name : String
  variable_groups : List Int
  repository : List Repository
  deriving DecidableEq, Repr

/-- A value stored in a generic `map[string]interface{}`: the code only
distinguishes strings (type assertion `.(string)` succeeds) from
everything else (the assertion panics). -/
inductive MapVal where
  | str (s : String)
  | nonString
  deriving DecidableEq, Repr

/-- The SDK's `build.YamlProcess` (field `YamlFilename *string`). -/
structure YamlProcess where
  YamlFilename : Option String
  deriving DecidableEq, Repr

/-- The shapes of the SDK's `interface{}`-typed `Process` member that
`flattenRepository` probes for: a generic string-keyed map, a typed
`*build.YamlProcess`, or anything else (including nil). -/
inductive Process where
  | genericMap (m : List (String × MapVal))
  | yaml (p : YamlProcess)
  | other
  deriving DecidableEq, Repr

/-- The SDK's `build.TaskAgentPoolReference` (only the field used). -/
structure TaskAgentPoolReference where
  Name : Option String
  deriving DecidableEq, Repr

/-- The SDK's `build.AgentPoolQueue` (only the fields used). -/
structure AgentPoolQueue where
  Name : Option String
  Pool : Option TaskAgentPoolReference
  deriving DecidableEq, Repr

/-- The SDK's `build.BuildRepository` (fields used by the code; the
Go field `Type` is rendered `Type'` since `Type` is reserved). -/
structure BuildRepository where
  Url : Option String
  Id : Option String
  Name : Option String
  DefaultBranch : Option String
  Type' : Option String
  Properties : Option (List (String × String))
  deriving DecidableEq, Repr

/-- The SDK's `build.VariableGroup` (only the `Id` field is used). -/
structure VariableGroup where
  Id : Option Int
  deriving DecidableEq, Repr

/-- The SDK's enum `DefinitionQueueStatus` (string-typed constants
`DefinitionQueueStatusValues` in Go). -/
inductive DefinitionQueueStatus where
  | enabled
  | paused
  | disabled
  deriving DecidableEq, Repr

/-- The SDK's enum `DefinitionType` (`DefinitionTypeValues`). -/
inductive DefinitionType where
  | build
  | xaml
  deriving DecidableEq, Repr

/-- The SDK's enum `DefinitionQuality` (`DefinitionQualityValues`). -/
inductive DefinitionQuality where
  | definition
  | draft
  deriving DecidableEq, Repr

/-- The SDK's `build.BuildDefinition`, restricted to the fields this
resource reads or writes (the Go field `Type` is rendered `Type'`). -/
structure BuildDefinition where
  Id : Option Int
  Name : Option String
  Path : Option String
  Revision : Option Int
  Repository : Option BuildRepository
  Process : Process
  Queue : Option AgentPoolQueue
  QueueStatus : Option DefinitionQueueStatus
  Type' : Option DefinitionType
  Quality : Option DefinitionQuality
  VariableGroups : Option (List VariableGroup)
  deriving DecidableEq, Repr

/-- Lookup in a generic `map[string]interface{}`: `m[k]` yields the
stored value, or the nil interface (here `none`) when `k` is absent. -/
def mapLookup (m : List (String × MapVal)) (k : String) : Option MapVal :=
  (m.find? (fun kv => kv.fst == k)).map (fun kv => kv.snd)

/-- Lookup in a `map[string]string`: `m[k]` yields the stored value, or
the zero value `""` when `k` is absent (Go map-indexing semantics). -/
def strMapLookup (m : List (String × String)) (k : String) : String :=
  ((m.find? (fun kv => kv.fst == k)).map (fun kv => kv.snd)).getD ""

/-- Go `strings.EqualFold`, modelled as equality of lowercasings
(coincides with Go's simple case folding on the ASCII repo types the
schema admits). -/
def EqualFold (s t : String) : Bool :=
  s.toLower == t.toLower

/-- Go `strconv.Atoi`: optional sign, one or more decimal digits,
value within the 64-bit signed range; anything else is an error
(`none`). -/
def Atoi (s : String) : Option Int :=
  match s.data with
  | [] => none
  | c :: cs =>
    let signed : Bool × List Char :=
      if c = '-' then (true, cs)
      else if c = '+' then (false, cs)
      else (false, c :: cs)
    let neg := signed.fst
    let ds := signed.snd
    if ds.isEmpty then none
    else if ds.all (fun ch => ch.isDigit) then
      let n : Nat := ds.foldl (fun acc ch => acc * 10 + (ch.toNat - 48)) 0
      if neg then
        if n ≤ 2 ^ 63 then some (-(n : Int)) else none
      else
        if n < 2 ^ 63 then some (n : Int) else none
    else none

/-- `buildVariableGroup`: wraps a group id in a `build.VariableGroup`. -/
def buildVariableGroup (id : Int) : VariableGroup :=
  { Id := some id }

/-- `expandBuildDefinition`: reads the config and builds the SDK
request object plus the project id. Fails when the `repository`
attribute does not hold exactly one entry. The repository URL is
synthesized for GitHub repos; the definition id is carried over only
when `d.Id()` parses as an integer (`strconv.Atoi`). -/
def expandBuildDefinition (d : ResourceData) :
    Except String (BuildDefinition × String) :=
  let projectID := d.project_id
  let repositories := d.repository
  let variableGroups := d.variable_groups.map (fun g => buildVariableGroup g)
  if h : repositories.length = 1 then
    let repository := repositories.get ⟨0, by omega⟩
    let repoName := repository.repo_name
    let repoType := repository.repo_type
    let repoURL :=
      if EqualFold repoType "github" then
        "https://github.com/" ++ repoName ++ ".git"
      else ""
    let buildDefinitionReference := Atoi d.id
    let agentPoolName := d.agent_pool_name
    Except.ok
      ({ Id := buildDefinitionReference
         Name := some d.name
         Path := some d.path
         Revision := some d.revision
         Repository := some
           { Url := some repoURL
             Id := some repoName
             Name := some repoName
             DefaultBranch := some repository.branch_name
             Type' := some repoType
             Properties := some
               [("connectedServiceId", repository.service_connection_id)] }
         Process := Process.yaml { YamlFilename := some repository.yml_path }
         Queue := some
           { Name := some agentPoolName
             Pool := some { Name := some agentPoolName } }
         QueueStatus := some DefinitionQueueStatus.enabled
         Type' := some DefinitionType.build
         Quality := some DefinitionQuality.definition
         VariableGroups := some variableGroups }, projectID)
  else
    Except.error "Unexpectedly did not find repository metadata in the resource data"

/-- `flattenRepository`: probes the untyped `Process` member for the
two known shapes and rebuilds the single `repository` block. `none`
models a Go runtime panic: a failed `.(string)` assertion on the
generic map's `yamlFilename` entry, or a nil-pointer dereference on
the repository fields. -/
def flattenRepository (bd : BuildDefinition) : Option Repository := do
  let yamlFilePath := ""
  let yamlFilePath ←
    match bd.Process with
    | Process.genericMap m =>
      match mapLookup m "yamlFilename" with
      | some (MapVal.str s) => some s
      | _ => none
    | _ => some yamlFilePath
  let yamlFilePath ←
    match bd.Process with
    | Process.yaml p => p.YamlFilename
    | _ => some yamlFilePath
  let repo ← bd.Repository
  let repoName ← repo.Name
  let repoType ← repo.Type'
  let branch ← repo.DefaultBranch
  let props ← repo.Properties
  pure
    { yml_path := yamlFilePath
      repo_name := repoName
      repo_type := repoType
      branch_name := branch
      service_connection_id := strMapLookup props "connectedServiceId" }

/-- The loop body of `flattenVariableGroups`: dereferences every
group's `Id` pointer (panicking, i.e. `none`, on nil). -/
def derefGroupIds : List VariableGroup → Option (List Int)
  | [] => some []
  | g :: gs => do
    let i ← g.Id
    let rest ← derefGroupIds gs
    pure (i :: rest)

/-- `flattenVariableGroups`: nil `VariableGroups` flattens to the nil
slice (an empty set on the Terraform side); otherwise each group id is
dereferenced. -/
def flattenVariableGroups (bd : BuildDefinition) : Option (List Int) :=
  match bd.VariableGroups with
  | none => some []
  | some gs => derefGroupIds gs

/-- `flattenBuildDefinition`: writes the server object back into the
config. `d.SetId(strconv.Itoa(*Id))` requires `Id` to be set; the
queue's pool name is dereferenced through two pointers; a missing
`Revision` becomes `0`; `d.Set` on a nil string pointer stores the
zero value `""`. `none` models the panic of a nil dereference. -/
def flattenBuildDefinition (d : ResourceData) (bd : BuildDefinition)
    (projectID : String) : Option ResourceData := do
  let defId ← bd.Id
  let queue ← bd.Queue
  let pool ← queue.Pool
  let repoFlat ← flattenRepository bd
  let vgs ← flattenVariableGroups bd
  pure
    { d with
      id := toString defId
      project_id := projectID
      name := bd.Name.getD ""
      path := bd.Path.getD ""
      agent_pool_name := pool.Name.getD ""
      revision := bd.Revision.getD 0
      repository := [repoFlat]
      variable_groups := vgs }

/-- A remote call issued through the build client, recorded so that
theorems can speak about which calls a lifecycle operation performs. -/
inductive RemoteCall where
  | create (project : String) (definition : BuildDefinition)
  | get (project : String) (definitionId : Int)
  | update (project : String) (definitionId : Option Int) (definition : BuildDefinition)
  | delete (project : String) (definitionId : Int)
  deriving DecidableEq, Repr

/-- Outcome of a lifecycle callback: the (possibly updated) resource
data on success, the returned error message on failure, or a Go
runtime panic (nil dereference / failed type assertion) in flattening. -/
inductive LifecycleResult where
  | ok (d : ResourceData)
  | err (msg : String)
  | panic
  deriving DecidableEq, Repr

/-- The remote build-definition API (`clients.BuildClient`): each
method either returns a server object or fails. -/
structure BuildClient where
  CreateDefinition : BuildDefinition → String → Except String BuildDefinition
  GetDefinition : String → Int → Except String BuildDefinition
  UpdateDefinition : BuildDefinition → String → Option Int → Except String BuildDefinition
  DeleteDefinition : String → Int → Except String Unit

/-- Modelled from the spec: `tfhelper.ParseProjectIDAndResourceID` is
not in the source tree. Per the spec it recovers the project id from
the config and parses the current resource identity as the numeric
definition id, failing with an InvalidInput condition when the
identity does not parse as an integer. -/
def ParseProjectIDAndResourceID (d : ResourceData) :
    Except String (String × Int) :=
  match Atoi d.id with
  | some n => Except.ok (d.project_id, n)
  | none => Except.error "InvalidInput: error parsing the resource ID"

/-- `createBuildDefinition`: a single pass-through to the remote
CreateDefinition call. -/
def createBuildDefinition (client : BuildClient) (bd : BuildDefinition)
    (project : String) : Except String BuildDefinition :=
  client.CreateDefinition bd project

/-- `resourceBuildDefinitionRead`: parse the identity, fetch the
object, flatten it. A fetch failure is returned unchanged; only a
flattening failure is wrapped. -/
def resourceBuildDefinitionRead (client : BuildClient) (d : ResourceData) :
    LifecycleResult × List RemoteCall :=
  match ParseProjectIDAndResourceID d with
  | Except.error e => (LifecycleResult.err e, [])
  | Except.ok (projectID, buildDefinitionID) =>
    match client.GetDefinition projectID buildDefinitionID with
    | Except.error e =>
      (LifecycleResult.err e, [RemoteCall.get projectID buildDefinitionID])
    | Except.ok bd =>
      match flattenBuildDefinition d bd projectID with
      | none => (LifecycleResult.panic, [RemoteCall.get projectID buildDefinitionID])
      | some d2 => (LifecycleResult.ok d2, [RemoteCall.get projectID buildDefinitionID])

/-- `resourceBuildDefinitionCreate`: expand, create remotely, flatten
the response, then re-read. Expansion and remote-create failures are
wrapped with the create-phase message (Go's `%+v` of an error renders
its message). -/
def resourceBuildDefinitionCreate (client : BuildClient) (d : ResourceData) :
    LifecycleResult × List RemoteCall :=
  match expandBuildDefinition d with
  | Except.error e =>
    (LifecycleResult.err ("Error creating resource Build Definition: " ++ e), [])
  | Except.ok (buildDefinition, projectID) =>
    match createBuildDefinition client buildDefinition projectID with
    | Except.error e =>
      (LifecycleResult.err ("Error creating resource Build Definition: " ++ e),
       [RemoteCall.create projectID buildDefinition])
    | Except.ok createdBuildDefinition =>
      match flattenBuildDefinition d createdBuildDefinition projectID with
      | none => (LifecycleResult.panic, [RemoteCall.create projectID buildDefinition])
      | some d2 =>
        let readResult := resourceBuildDefinitionRead client d2
        (readResult.fst, RemoteCall.create projectID buildDefinition :: readResult.snd)

/-- `resourceBuildDefinitionUpdate`: re-expand the full config, send a
full replacement, flatten the response. Expansion and remote-update
failures are returned unchanged. -/
def resourceBuildDefinitionUpdate (client : BuildClient) (d : ResourceData) :
    LifecycleResult × List RemoteCall :=
  match expandBuildDefinition d with
  | Except.error e => (LifecycleResult.err e, [])
  | Except.ok (buildDefinition, projectID) =>
    match client.UpdateDefinition buildDefinition projectID buildDefinition.Id with
    | Except.error e =>
      (LifecycleResult.err e,
       [RemoteCall.update projectID buildDefinition.Id buildDefinition])
    | Except.ok updatedBuildDefinition =>
      match flattenBuildDefinition d updatedBuildDefinition projectID with
      | none =>
        (LifecycleResult.panic,
         [RemoteCall.update projectID buildDefinition.Id buildDefinition])
      | some d2 =>
        (LifecycleResult.ok d2,
         [RemoteCall.update projectID buildDefinition.Id buildDefinition])

/-- `resourceBuildDefinitionDelete`: a resource with no identifier is
deleted as a no-op success; otherwise the identity is parsed and one
remote deletion is issued, its error returned unchanged. -/
def resourceBuildDefinitionDelete (client : BuildClient) (d : ResourceData) :
    LifecycleResult × List RemoteCall :=
  if d.id = "" then (LifecycleResult.ok d, [])
  else
    match ParseProjectIDAndResourceID d with
    | Except.error e => (LifecycleResult.err e, [])
    | Except.ok (projectID, buildDefinitionID) =>
      match client.DeleteDefinition projectID buildDefinitionID with
      | Except.error e =>
        (LifecycleResult.err e, [RemoteCall.delete projectID buildDefinitionID])
      | Except.ok _ =>
        (LifecycleResult.ok d, [RemoteCall.delete projectID buildDefinitionID])

/-- The build definition `expandBuildDefinition` produces for a config
whose `repository` attribute holds exactly the entry `r`; used to state
the expansion lemmas once and reuse them. -/
def expandedDef (d : ResourceData) (r : Repository) : BuildDefinition :=
  { Id := Atoi d.id
    Name := some d.name
    Path := some d.path
    Revision := some d.revision
    Repository := some
      { Url := some (if EqualFold r.repo_type "github" then
          "https://github.com/" ++ r.repo_name ++ ".git" else "")
        Id := some r.repo_name
        Name := some r.repo_name
        DefaultBranch := some r.branch_name
        Type' := some r.repo_type
        Properties := some [("connectedServiceId", r.service_connection_id)] }
    Process := Process.yaml { YamlFilename := some r.yml_path }
    Queue := some
      { Name := some d.agent_pool_name
        Pool := some { Name := some d.agent_pool_name } }
    QueueStatus := some DefinitionQueueStatus.enabled
    Type' := some DefinitionType.build
    Quality := some DefinitionQuality.definition
    VariableGroups := some (d.variable_groups.map (fun g => buildVariableGroup g)) }

/-- A client whose mutating calls succeed by echoing the request. -/
def okClient : BuildClient :=
  { CreateDefinition := fun bd _ => Except.ok bd
    GetDefinition := fun _ _ => Except.error "definition not found"
    UpdateDefinition := fun bd _ _ => Except.ok bd
    DeleteDefinition := fun _ _ => Except.ok () }

/-- A client whose every remote call fails, with a distinct cause per
operation. -/
def failClient : BuildClient :=
  { CreateDefinition := fun _ _ => Except.error "create failure"
    GetDefinition := fun _ _ => Except.error "connection reset"
    UpdateDefinition := fun _ _ _ => Except.error "update failure"
    DeleteDefinition := fun _ _ => Except.error "delete failure" }

/-- A concrete GitHub repository block. -/
def r0 : Repository :=
  { yml_path := "ci.yml", repo_name := "org/repo", repo_type := "GitHub",
    branch_name := "master", service_connection_id := "sc1" }

/-- A concrete config with one repository block and no id yet. -/
def d0 : ResourceData :=
  { id := "", project_id := "proj", name := "pipeline", path := "\\",
    revision := 0, agent_pool_name := "Hosted Ubuntu 1604",
    variable_groups := [1, 2], repository := [r0] }

/-- A concrete TfsGit repository block. -/
def rTfs : Repository :=
  { yml_path := "ci.yml", repo_name := "myrepo", repo_type := "TfsGit",
    branch_name := "master", service_connection_id := "" }

/-- `d0` with a TfsGit repository instead of the GitHub one. -/
def dTfs : ResourceData := { d0 with repository := [rTfs] }

/-- `d0` with an empty `repository` attribute. -/
def dNoRepo : ResourceData := { d0 with repository := [] }

/-- `d0` with the server-assigned identifier `"5"`. -/
def d5 : ResourceData := { d0 with id := "5" }

/-- A concrete server-side object whose process is a generic map
carrying a `yamlFilename` string and whose revision is unset. -/
def bdServer : BuildDefinition :=
  { Id := some 7, Name := some "pipeline", Path := some "\\",
    Revision := none,
    Repository := some
      { Url := some "", Id := some "myrepo", Name := some "myrepo",
        DefaultBranch := some "master", Type' := some "TfsGit",
        Properties := some [("connectedServiceId", "sc1")] }
    Process := Process.genericMap [("yamlFilename", MapVal.str "azure-pipelines.yml")]
    Queue := some { Name := some "pool", Pool := some { Name := some "pool" } }
    QueueStatus := some DefinitionQueueStatus.enabled
    Type' := some DefinitionType.build
    Quality := some DefinitionQuality.definition
    VariableGroups := none }

/-- `bdServer` with a generic process map that has no `yamlFilename`
key at all. -/
def bdNoYamlKey : BuildDefinition :=
  { bdServer with Process := Process.genericMap [("type", MapVal.nonString)] }

/-- Dereferencing the ids of groups built by `buildVariableGroup`
recovers the original list. -/
theorem derefGroupIds_map_buildVariableGroup (l : List Int) :
    derefGroupIds (l.map (fun g => buildVariableGroup g)) = some l := by
  induction l with
  | nil => rfl
  | cons x xs ih =>
    simp only [List.map_cons, derefGroupIds, ih]
    rfl

/-- On a config whose `repository` attribute holds exactly one entry,
`expandBuildDefinition` succeeds and returns `expandedDef` together
with the config's project id. -/
theorem expandBuildDefinition_eq (d : ResourceData) (r : Repository)
    (h : d.repository = [r]) :
    expandBuildDefinition d = Except.ok (expandedDef d r, d.project_id) := by
  obtain ⟨id, pid, nm, pa, rev, apn, vgs, repo⟩ := d
  dsimp only at h
  subst h
  rfl

/-- Flattening the expanded object (with any server-assigned id) fully
recovers the config's attributes. -/
theorem flatten_expanded (d0' d : ResourceData) (r : Repository) (n : Int) :
    flattenBuildDefinition d0' { expandedDef d r with Id := some n } d.project_id =
      some { id := toString n, project_id := d.project_id, name := d.name,
             path := d.path, revision := d.revision,
             agent_pool_name := d.agent_pool_name,
             variable_groups := d.variable_groups, repository := [r] } := by
  simp [flattenBuildDefinition, expandedDef, flattenRepository,
    flattenVariableGroups, derefGroupIds_map_buildVariableGroup,
    strMapLookup, mapLookup]

/-- `flattenRepository` does not read the `Revision` field. -/
theorem flattenRepository_revision_irrelevant (bd : BuildDefinition) :
    flattenRepository { bd with Revision := none } = flattenRepository bd := by
  cases bd
  rfl

/-- `flattenVariableGroups` does not read the `Revision` field. -/
theorem flattenVariableGroups_revision_irrelevant (bd : BuildDefinition) :
    flattenVariableGroups { bd with Revision := none } = flattenVariableGroups bd := by
  cases bd
  rfl

/-- Claim C1: for every valid config (one repository entry), applying
Expand and then Flatten to a synthetic server object built from the
expanded request (the expansion with a server-assigned id) reproduces
the original `name`, `path` and the whole repository block, i.e. the
`repo_name`, `repo_type`, `branch_name`, `yml_path` and
`service_connection_id` values. -/
theorem expand_flatten_roundtrip (d : ResourceData) (r : Repository) (n : Int)
    (h : d.repository = [r]) :
    ∃ bd projectID d2,
      expandBuildDefinition d = Except.ok (bd, projectID) ∧
      flattenBuildDefinition d { bd with Id := some n } projectID = some d2 ∧
      d2.name = d.name ∧ d2.path = d.path ∧ d2.repository = [r] :=
  ⟨expandedDef d r, d.project_id,
   { id := toString n, project_id := d.project_id, name := d.name,
     path := d.path, revision := d.revision,
     agent_pool_name := d.agent_pool_name,
     variable_groups := d.variable_groups, repository := [r] },
   expandBuildDefinition_eq d r h, flatten_expanded d d r n, rfl, rfl, rfl⟩

/-- Witness for C1 at the concrete config `d0` with assigned id 7. -/
theorem expand_flatten_roundtrip_witness :
    ∃ bd projectID d2,
      expandBuildDefinition d0 = Except.ok (bd, projectID) ∧
      flattenBuildDefinition d0 { bd with Id := some 7 } projectID = some d2 ∧
      d2.name = d0.name ∧ d2.path = d0.path ∧ d2.repository = [r0] :=
  expand_flatten_roundtrip d0 r0 7 rfl

/-- Claim C2: Expand derives the repository URL as
`https://github.com/<repo_name>.git` exactly when `repo_type` is
case-insensitively equal to `"github"` (`strings.EqualFold`), and as
the empty string for every other `repo_type` value. -/
theorem expand_repository_url (d : ResourceData) (r : Repository)
    (h : d.repository = [r]) :
    ∃ bd projectID repo,
      expandBuildDefinition d = Except.ok (bd, projectID) ∧
      bd.Repository = some repo ∧
      (EqualFold r.repo_type "github" = true →
        repo.Url = some ("https://github.com/" ++ r.repo_name ++ ".git")) ∧
      (EqualFold r.repo_type "github" = false → repo.Url = some "") := by
  refine ⟨expandedDef d r, d.project_id, _, expandBuildDefinition_eq d r h, rfl, ?_, ?_⟩
  · intro hg
    simp [expandedDef, hg]
  · intro hg
    simp [expandedDef, hg]

/-- Witness for C2 at a GitHub config (`d0`) and a TfsGit config
(`dTfs`). -/
theorem expand_repository_url_witness :
    (∃ bd projectID repo,
      expandBuildDefinition d0 = Except.ok (bd, projectID) ∧
      bd.Repository = some repo ∧
      (EqualFold r0.repo_type "github" = true →
        repo.Url = some ("https://github.com/" ++ r0.repo_name ++ ".git")) ∧
      (EqualFold r0.repo_type "github" = false → repo.Url = some "")) ∧
    (∃ bd projectID repo,
      expandBuildDefinition dTfs = Except.ok (bd, projectID) ∧
      bd.Repository = some repo ∧
      (EqualFold rTfs.repo_type "github" = true →
        repo.Url = some ("https://github.com/" ++ rTfs.repo_name ++ ".git")) ∧
      (EqualFold rTfs.repo_type "github" = false → repo.Url = some "")) :=
  ⟨expand_repository_url d0 r0 rfl, expand_repository_url dTfs rTfs rfl⟩

/-- Claim C3, counterexample to the claim as stated: a remote read
failure is surfaced verbatim — `resourceBuildDefinitionRead` returns
exactly the cause `"connection reset"` the client produced, with no
wrapping message identifying the read phase (the code is
`return err`, not a wrapped error). -/
theorem read_error_surfaced_unwrapped :
    (resourceBuildDefinitionRead failClient d5).fst =
      LifecycleResult.err "connection reset" := by
  rfl

/-- Claim C3, as amended: every remote failure is surfaced immediately
to the caller; the create phase wraps it with operation context
(`"Error creating resource Build Definition: <cause>"`), while the
read, update and delete phases return the remote error unchanged,
without a phase-identifying wrapper. -/
theorem remote_error_propagation (d : ResourceData) (client : BuildClient) :
    (∀ bd p e, expandBuildDefinition d = Except.ok (bd, p) →
      client.CreateDefinition bd p = Except.error e →
      (resourceBuildDefinitionCreate client d).fst =
        LifecycleResult.err ("Error creating resource Build Definition: " ++ e)) ∧
    (∀ p n e, ParseProjectIDAndResourceID d = Except.ok (p, n) →
      client.GetDefinition p n = Except.error e →
      (resourceBuildDefinitionRead client d).fst = LifecycleResult.err e) ∧
    (∀ bd p e, expandBuildDefinition d = Except.ok (bd, p) →
      client.UpdateDefinition bd p bd.Id = Except.error e →
      (resourceBuildDefinitionUpdate client d).fst = LifecycleResult.err e) ∧
    (∀ p n e, d.id ≠ "" → ParseProjectIDAndResourceID d = Except.ok (p, n) →
      client.DeleteDefinition p n = Except.error e →
      (resourceBuildDefinitionDelete client d).fst = LifecycleResult.err e) := by
  refine ⟨?_, ?_, ?_, ?_⟩
  · intro bd p e h1 h2
    simp [resourceBuildDefinitionCreate, createBuildDefinition, h1, h2]
  · intro p n e h1 h2
    simp [resourceBuildDefinitionRead, h1, h2]
  · intro bd p e h1 h2
    simp [resourceBuildDefinitionUpdate, h1, h2]
  · intro p n e h0 h1 h2
    simp [resourceBuildDefinitionDelete, h0, h1, h2]

/-- Witness for the amended C3 with the everywhere-failing client at
the concrete config `d5`. -/
theorem remote_error_propagation_witness :
    (resourceBuildDefinitionCreate failClient d5).fst =
      LifecycleResult.err "Error creating resource Build Definition: create failure" ∧
    (resourceBuildDefinitionRead failClient d5).fst =
      LifecycleResult.err "connection reset" ∧
    (resourceBuildDefinitionUpdate failClient d5).fst =
      LifecycleResult.err "update failure" ∧
    (resourceBuildDefinitionDelete failClient d5).fst =
      LifecycleResult.err "delete failure" := by
  obtain ⟨bd, p, hbd⟩ : ∃ bd p, expandBuildDefinition d5 = Except.ok (bd, p) :=
    ⟨_, _, rfl⟩
  exact ⟨(remote_error_propagation d5 failClient).1 bd p "create failure" hbd rfl,
    (remote_error_propagation d5 failClient).2.1 "proj" 5 "connection reset" rfl rfl,
    (remote_error_propagation d5 failClient).2.2.1 bd p "update failure" hbd rfl,
    (remote_error_propagation d5 failClient).2.2.2 "proj" 5 "delete failure"
      (by decide) rfl rfl⟩

/-- Claim C4: when the `repository` attribute does not hold exactly one
entry, Expand fails with the InvalidInput error and returns no build
definition, and neither the create nor the update lifecycle operation
issues any remote call. -/
theorem expand_rejects_repository_count (d : ResourceData) (client : BuildClient)
    (h : d.repository.length ≠ 1) :
    expandBuildDefinition d =
      Except.error "Unexpectedly did not find repository metadata in the resource data" ∧
    (resourceBuildDefinitionCreate client d).snd = [] ∧
    (resourceBuildDefinitionUpdate client d).snd = [] := by
  have he : expandBuildDefinition d =
      Except.error "Unexpectedly did not find repository metadata in the resource data" := by
    simp [expandBuildDefinition, h]
  exact ⟨he, by simp [resourceBuildDefinitionCreate, he],
    by simp [resourceBuildDefinitionUpdate, he]⟩

/-- Witness for C4 at the concrete config `dNoRepo` with zero
repository entries. -/
theorem expand_rejects_repository_count_witness :
    expandBuildDefinition dNoRepo =
      Except.error "Unexpectedly did not find repository metadata in the resource data" ∧
    (resourceBuildDefinitionCreate okClient dNoRepo).snd = [] ∧
    (resourceBuildDefinitionUpdate okClient dNoRepo).snd = [] :=
  expand_rejects_repository_count dNoRepo okClient (by decide)

/-- Claim C5: Flatten extracts the same `yml_path`, equal to the
filename, whether the server object's process is a generic string-keyed
map carrying the filename under `"yamlFilename"` or a typed
YAML-process value with the same filename; indeed the flattened
repository blocks coincide entirely. -/
theorem flatten_process_shapes_agree (bd : BuildDefinition) (f : String) :
    flattenRepository { bd with Process := Process.yaml { YamlFilename := some f } } =
      flattenRepository
        { bd with Process := Process.genericMap [("yamlFilename", MapVal.str f)] } ∧
    ∀ r, flattenRepository { bd with Process := Process.yaml { YamlFilename := some f } } =
        some r → r.yml_path = f := by
  obtain ⟨Id, Nm, Pa, Rev, Repo, Proc, Qu, QS, Ty, Qual, VG⟩ := bd
  constructor
  · rfl
  · intro r hr
    simp only [flattenRepository, Option.bind_eq_bind, Option.bind_eq_some] at hr
    obtain ⟨y1, hy1, y2, hy2, repo, hrepo, nm, hnm, ty, hty, br, hbr, props,
      hprops, hpure⟩ := hr
    cases hy1
    cases hy2
    cases hpure
    rfl

/-- Witness for C5 at the concrete server object `bdServer` with the
filename `"azure-pipelines.yml"`. -/
theorem flatten_process_shapes_agree_witness :
    flattenRepository { bdServer with
        Process := Process.yaml { YamlFilename := some "azure-pipelines.yml" } } =
      flattenRepository { bdServer with
        Process := Process.genericMap
          [("yamlFilename", MapVal.str "azure-pipelines.yml")] } ∧
    ∀ r, flattenRepository { bdServer with
        Process := Process.yaml { YamlFilename := some "azure-pipelines.yml" } } =
      some r → r.yml_path = "azure-pipelines.yml" :=
  flatten_process_shapes_agree bdServer "azure-pipelines.yml"

/-- Claim C6: Delete on a config whose resource identifier is empty
returns success immediately, issues no remote call, and leaves the
config unchanged. -/
theorem delete_absent_resource_noop (client : BuildClient) (d : ResourceData)
    (h : d.id = "") :
    resourceBuildDefinitionDelete client d = (LifecycleResult.ok d, []) := by
  simp [resourceBuildDefinitionDelete, h]

/-- Witness for C6: deleting `d0` (empty identifier) succeeds without
remote calls even against the everywhere-failing client. -/
theorem delete_absent_resource_noop_witness :
    resourceBuildDefinitionDelete failClient d0 = (LifecycleResult.ok d0, []) :=
  delete_absent_resource_noop failClient d0 rfl

/-- Claim C7: Expand sets the built definition's `Id` from the current
resource identifier exactly when the identifier parses as an integer
(`strconv.Atoi`); an absent (empty) or unparseable identifier leaves
`Id` unset. -/
theorem expand_id_carryover (d : ResourceData) (r : Repository)
    (h : d.repository = [r]) :
    ∃ bd projectID,
      expandBuildDefinition d = Except.ok (bd, projectID) ∧
      bd.Id = Atoi d.id ∧ (d.id = "" → bd.Id = none) := by
  refine ⟨expandedDef d r, d.project_id, expandBuildDefinition_eq d r h, rfl, ?_⟩
  intro h0
  simp [expandedDef, h0, Atoi]

/-- Witness for C7 at the id-less config `d0` and at `d5`, whose
identifier `"5"` parses. -/
theorem expand_id_carryover_witness :
    (∃ bd projectID,
      expandBuildDefinition d0 = Except.ok (bd, projectID) ∧
      bd.Id = Atoi d0.id ∧ (d0.id = "" → bd.Id = none)) ∧
    (∃ bd projectID,
      expandBuildDefinition d5 = Except.ok (bd, projectID) ∧
      bd.Id = Atoi d5.id ∧ (d5.id = "" → bd.Id = none)) :=
  ⟨expand_id_carryover d0 r0 rfl, expand_id_carryover d5 r0 rfl⟩

/-- Claim C8: Flatten stores the server object's revision, defaulting a
missing (`none`) revision to 0; a missing revision is not an error —
unsetting it changes nothing but the stored revision. -/
theorem flatten_revision_defaults_to_zero (d : ResourceData) (bd : BuildDefinition)
    (p : String) :
    (∀ d2, flattenBuildDefinition d bd p = some d2 →
      d2.revision = bd.Revision.getD 0) ∧
    flattenBuildDefinition d { bd with Revision := none } p =
      (flattenBuildDefinition d bd p).map (fun d2 => { d2 with revision := 0 }) := by
  constructor
  · intro d2 h2
    simp only [flattenBuildDefinition, Option.bind_eq_bind, Option.bind_eq_some] at h2
    obtain ⟨defId, hId, queue, hQ, pool, hP, repoFlat, hR, vgs, hV, hpure⟩ := h2
    cases hpure
    rfl
  · obtain ⟨Id, Nm, Pa, Rev, Repo, Proc, Qu, QS, Ty, Qual, VG⟩ := bd
    have hFR : flattenRepository ⟨Id, Nm, Pa, none, Repo, Proc, Qu, QS, Ty, Qual, VG⟩
        = flattenRepository ⟨Id, Nm, Pa, Rev, Repo, Proc, Qu, QS, Ty, Qual, VG⟩ := rfl
    have hVG : flattenVariableGroups ⟨Id, Nm, Pa, none, Repo, Proc, Qu, QS, Ty, Qual, VG⟩
        = flattenVariableGroups ⟨Id, Nm, Pa, Rev, Repo, Proc, Qu, QS, Ty, Qual, VG⟩ := rfl
    simp only [flattenBuildDefinition]
    rw [hFR, hVG]
    generalize flattenRepository ⟨Id, Nm, Pa, Rev, Repo, Proc, Qu, QS, Ty, Qual, VG⟩ = FR
    generalize flattenVariableGroups ⟨Id, Nm, Pa, Rev, Repo, Proc, Qu, QS, Ty, Qual, VG⟩ = VGS
    rcases Id with _ | defId
    · rfl
    rcases Qu with _ | ⟨QName, QPool⟩
    · rfl
    rcases QPool with _ | pool
    · rfl
    rcases FR with _ | repoFlat
    · rfl
    rcases VGS with _ | vgs
    · rfl
    rfl

/-- Witness for C8 at the concrete server object `bdServer`, whose
revision is unset. -/
theorem flatten_revision_defaults_to_zero_witness :
    (∀ d2, flattenBuildDefinition d0 bdServer "proj" = some d2 →
      d2.revision = bdServer.Revision.getD 0) ∧
    flattenBuildDefinition d0 { bdServer with Revision := none } "proj" =
      (flattenBuildDefinition d0 bdServer "proj").map
        (fun d2 => { d2 with revision := 0 }) :=
  flatten_revision_defaults_to_zero d0 bdServer "proj"

/-- Claim C9: the expanded definition always has queue status Enabled,
type Build, quality Definition, the config's `agent_pool_name` as both
the queue name and the pool reference name, and the repository's `Id`
and `Name` both set from `repo_name`. -/
theorem expand_fixed_fields (d : ResourceData) (r : Repository)
    (h : d.repository = [r]) :
    ∃ bd projectID queue pool repo,
      expandBuildDefinition d = Except.ok (bd, projectID) ∧
      bd.QueueStatus = some DefinitionQueueStatus.enabled ∧
      bd.Type' = some DefinitionType.build ∧
      bd.Quality = some DefinitionQuality.definition ∧
      bd.Queue = some queue ∧ queue.Name = some d.agent_pool_name ∧
      queue.Pool = some pool ∧ pool.Name = some d.agent_pool_name ∧
      bd.Repository = some repo ∧ repo.Id = some r.repo_name ∧
      repo.Name = some r.repo_name :=
  ⟨expandedDef d r, d.project_id, _, _, _, expandBuildDefinition_eq d r h,
   rfl, rfl, rfl, rfl, rfl, rfl, rfl, rfl, rfl, rfl⟩

/-- Witness for C9 at the concrete config `d0`. -/
theorem expand_fixed_fields_witness :
    ∃ bd projectID queue pool repo,
      expandBuildDefinition d0 = Except.ok (bd, projectID) ∧
      bd.QueueStatus = some DefinitionQueueStatus.enabled ∧
      bd.Type' = some DefinitionType.build ∧
      bd.Quality = some DefinitionQuality.definition ∧
      bd.Queue = some queue ∧ queue.Name = some d0.agent_pool_name ∧
      queue.Pool = some pool ∧ pool.Name = some d0.agent_pool_name ∧
      bd.Repository = some repo ∧ repo.Id = some r0.repo_name ∧
      repo.Name = some r0.repo_name :=
  expand_fixed_fields d0 r0 rfl

/-- Claim C10: `flattenRepository` is not total on process shapes — on
a generic string-keyed map without a string value under
`"yamlFilename"`, the `.(string)` type assertion fails (the panic
branch, modelled as `none`, is taken). -/
theorem flattenRepository_generic_map_panics (bd : BuildDefinition)
    (m : List (String × MapVal)) (hp : bd.Process = Process.genericMap m)
    (h : ∀ s, mapLookup m "yamlFilename" ≠ some (MapVal.str s)) :
    flattenRepository bd = none := by
  obtain ⟨Id, Nm, Pa, Rev, Repo, Proc, Qu, QS, Ty, Qual, VG⟩ := bd
  dsimp only at hp
  subst hp
  cases hv : mapLookup m "yamlFilename" with
  | none => simp [flattenRepository, hv]
  | some v =>
    cases v with
    | str s => exact absurd hv (h s)
    | nonString => simp [flattenRepository, hv]

/-- Witness for C10 at the concrete server object `bdNoYamlKey`, whose
process map lacks the `yamlFilename` key. -/
theorem flattenRepository_generic_map_panics_witness :
    flattenRepository bdNoYamlKey = none :=
  flattenRepository_generic_map_panics bdNoYamlKey
    [("type", MapVal.nonString)] rfl (by simp [mapLookup])

end AzureDevOps
